import Mathlib

/-!
Verification of the arkitekt-sidecar proxy gateway (src/main.go).

This file shallowly embeds the status-projection code of `startStatusServer`
(src/main.go lines 191-281), the JSON shapes `PeerStatus` and `StatusResponse`
(lines 170-189), and the proxy handlers `ServeHTTP`, `handleHTTP` and
`handleTunnel` (lines 294-361), and proves the documented properties of the
system against the embedding.

Modelling conventions:
  - Go strings are Lean `String`; Go `int64` is Lean `Int` together with an
    explicit range predicate `isInt64` where 64-bit-ness matters.
  - Go slices are `GoSlice`, which distinguishes the Go nil slice from a
    non-nil (possibly empty) slice, because `encoding/json` marshals a nil
    slice as JSON `null` and a non-nil empty slice as `[]`.
  - `netip.Addr` appears only through the library call `ip.String()`; an
    address is therefore embedded as `IPAddr`, carrying the rendered string.
  - `time.Time` appears only through `IsZero()` and `Format(time.RFC3339)`;
    a timestamp is therefore embedded as `GoTime`, carrying the zero flag and
    the rendered RFC3339 string.
  - Effectful handlers are embedded as pure functions from their inputs
    (hijack result, dial result, the byte chunks each side will produce) to an
    outcome record listing, in program order, the writes performed on each
    connection, the close actions, the log lines, and the error (if any)
    surfaced to a caller.
-/

/-- Go slice: `nil` is the Go nil slice, `mk xs` a non-nil slice with the
given elements. `encoding/json` marshals `nil` as JSON null and `mk []` as
the empty JSON array. -/
inductive GoSlice (α : Type) where
  | nil : GoSlice α
  | mk (xs : List α) : GoSlice α
deriving DecidableEq

/-- Go append on a slice: appending to the nil slice allocates a fresh
non-nil slice, as `append` does in Go. -/
def GoSlice.push {α : Type} (s : GoSlice α) (x : α) : GoSlice α :=
  match s with
  | .nil => .mk [x]
  | .mk xs => .mk (xs ++ [x])

/-- Embedding of `netip.Addr` restricted to what the code uses: the string
rendering produced by the library call `ip.String()`. -/
structure IPAddr where
  render : String
deriving DecidableEq

/-- Embedding of `time.Time` restricted to what the code uses: `IsZero()`
and the RFC3339 rendering produced by `Format(time.RFC3339)`. -/
structure GoTime where
  isZero : Bool
  rfc3339 : String
deriving DecidableEq

/-- Fields of `ipnstate.PeerStatus` read by `startStatusServer`
(src/main.go lines 211-263): DNSName, HostName, TailscaleIPs, Online,
CurAddr, Relay, RxBytes, TxBytes, LastSeen, LastHandshake. RxBytes and
TxBytes are `int64` in the Go source. -/
structure TSPeerStatus where
  dnsName : String
  hostName : String
  tailscaleIPs : List IPAddr
  online : Bool
  curAddr : String
  relay : String
  rxBytes : Int
  txBytes : Int
  lastSeen : GoTime
  lastHandshake : GoTime
deriving DecidableEq

/-- Fields of `ipnstate.Status` read by `startStatusServer`: Self (a nil-able
pointer), Peer (projected here as the iteration sequence over the map), and
BackendState. -/
structure TSStatus where
  self : Option TSPeerStatus
  peer : List TSPeerStatus
  backendState : String
deriving DecidableEq

/-- `PeerStatus` struct of src/main.go lines 170-182. `RxBytes` and
`TxBytes` are declared `int64` there. `TailscaleIPs` is a Go `[]string`,
hence `GoSlice String` here. -/
structure PeerStatus where
  name : String
  hostName : String
  tailscaleIPs : GoSlice String
  online : Bool
  direct : Bool
  relayedVia : String
  curAddr : String
  rxBytes : Int
  txBytes : Int
  lastSeen : String
  lastHandshake : String
deriving DecidableEq

/-- The Go zero value of `PeerStatus`: every string empty, booleans false,
counters zero, and the `TailscaleIPs` slice nil. -/
def zeroPeerStatus : PeerStatus :=
  { name := ""
    hostName := ""
    tailscaleIPs := .nil
    online := false
    direct := false
    relayedVia := ""
    curAddr := ""
    rxBytes := 0
    txBytes := 0
    lastSeen := ""
    lastHandshake := "" }

/-- `StatusResponse` struct of src/main.go lines 185-189. `Peers` is a Go
`[]PeerStatus`, hence `GoSlice PeerStatus`. -/
structure StatusResponse where
  self : PeerStatus
  peers : GoSlice PeerStatus
  backendState : String
deriving DecidableEq

/-- Self projection of the /status handler (src/main.go lines 211-223):
when `status.Self` is non-nil, only Name, HostName, TailscaleIPs and Online
are set (TailscaleIPs via `make` + `ip.String()` loop, hence non-nil); every
other field keeps its Go zero value. When `status.Self` is nil the response
keeps the zero-valued self record. -/
def projectSelf (s : Option TSPeerStatus) : PeerStatus :=
  match s with
  | none => zeroPeerStatus
  | some self =>
      { zeroPeerStatus with
          name := self.dnsName
          hostName := self.hostName
          tailscaleIPs := .mk (self.tailscaleIPs.map IPAddr.render)
          online := self.online }

/-- Peer projection of the /status handler (src/main.go lines 226-263):
renders the IPs, computes `isDirect := peer.CurAddr != "" && peer.Relay == ""`,
copies the relay region when non-empty, renders the two timestamps when
non-zero, and copies the remaining fields verbatim. -/
def projectPeer (peer : TSPeerStatus) : PeerStatus :=
  let ips : GoSlice String := .mk (peer.tailscaleIPs.map IPAddr.render)
  let isDirect : Bool := !(peer.curAddr == "") && (peer.relay == "")
  let relayedVia : String := if !(peer.relay == "") then peer.relay else ""
  let lastSeen : String := if !peer.lastSeen.isZero then peer.lastSeen.rfc3339 else ""
  let lastHandshake : String :=
    if !peer.lastHandshake.isZero then peer.lastHandshake.rfc3339 else ""
  { name := peer.dnsName
    hostName := peer.hostName
    tailscaleIPs := ips
    online := peer.online
    direct := isDirect
    relayedVia := relayedVia
    curAddr := peer.curAddr
    rxBytes := peer.rxBytes
    txBytes := peer.txBytes
    lastSeen := lastSeen
    lastHandshake := lastHandshake }

/-- Whole-document projection of the /status handler (src/main.go lines
207-264): the response starts with `BackendState` set and everything else
zero, the self branch runs, then each peer is appended in iteration order
with Go `append` starting from the nil `Peers` slice. -/
def buildStatusResponse (st : TSStatus) : StatusResponse :=
  { self := projectSelf st.self
    peers := st.peer.foldl (fun acc p => acc.push (projectPeer p)) GoSlice.nil
    backendState := st.backendState }

/-- JSON values as produced by `encoding/json` for the types at hand. -/
inductive JSON where
  | jnull : JSON
  | jstr (s : String) : JSON
  | jint (n : Int) : JSON
  | jbool (b : Bool) : JSON
  | jarr (xs : List JSON) : JSON
  | jobj (fields : List (String × JSON)) : JSON

/-- Lookup of a key in a JSON object; `none` on non-objects and missing
keys. -/
def JSON.lookup (j : JSON) (k : String) : Option JSON :=
  match j with
  | .jobj fields => go fields
  | _ => none
where
  go : List (String × JSON) → Option JSON
    | [] => none
    | (k2, v) :: rest => if k2 == k then some v else go rest

/-- A JSON object carries the given key. -/
def JSON.hasKey (j : JSON) (k : String) : Bool :=
  (j.lookup k).isSome

/-- Marshalling of a Go `[]string`: nil becomes null, otherwise the array of
strings. -/
def encodeStringSlice (s : GoSlice String) : JSON :=
  match s with
  | .nil => .jnull
  | .mk xs => .jarr (xs.map JSON.jstr)

/-- Marshalling of `PeerStatus` by `encoding/json`: the struct has no
omitempty tags, so every field is emitted, in declaration order, under its
tag name. -/
def encodePeerStatus (p : PeerStatus) : JSON :=
  .jobj
    [ ("name", .jstr p.name)
    , ("hostname", .jstr p.hostName)
    , ("tailscale_ips", encodeStringSlice p.tailscaleIPs)
    , ("online", .jbool p.online)
    , ("direct", .jbool p.direct)
    , ("relayed_via", .jstr p.relayedVia)
    , ("current_address", .jstr p.curAddr)
    , ("rx_bytes", .jint p.rxBytes)
    , ("tx_bytes", .jint p.txBytes)
    , ("last_seen", .jstr p.lastSeen)
    , ("last_handshake", .jstr p.lastHandshake) ]

/-- Marshalling of `StatusResponse` by `encoding/json`: all three fields are
emitted; a nil `Peers` slice becomes null. -/
def encodeStatusResponse (r : StatusResponse) : JSON :=
  .jobj
    [ ("self", encodePeerStatus r.self)
    , ("peers",
        match r.peers with
        | .nil => .jnull
        | .mk ps => .jarr (ps.map encodePeerStatus))
    , ("backend_state", .jstr r.backendState) ]

/-- The eleven JSON keys of a serialized `PeerStatus` record. -/
def peerStatusKeys : List String :=
  [ "name", "hostname", "tailscale_ips", "online", "direct", "relayed_via"
  , "current_address", "rx_bytes", "tx_bytes", "last_seen", "last_handshake" ]

/-- A JSON value carries all eleven `PeerStatus` keys. -/
def hasAllPeerStatusKeys (j : JSON) : Bool :=
  peerStatusKeys.all (fun k => j.hasKey k)

/-- Lower bound of Go int64. -/
def int64Min : Int := -(2 ^ 63)

/-- Upper bound of Go int64. -/
def int64Max : Int := 2 ^ 63 - 1

/-- An integer fits Go int64. -/
def isInt64 (n : Int) : Prop := int64Min ≤ n ∧ n ≤ int64Max

instance (n : Int) : Decidable (isInt64 n) := by
  unfold isInt64; infer_instance

/-- Result of `hijacker.Hijack()` in `handleTunnel` (src/main.go lines
334-343): the ResponseWriter may not support hijacking, the hijack call may
fail, or it yields the raw client connection. -/
inductive HijackResult where
  | unsupported : HijackResult
  | failed (msg : String) : HijackResult
  | ok : HijackResult
deriving DecidableEq

/-- Result of `p.Dialer.Dial` in `handleTunnel` (src/main.go line 347): on
success the argument lists, in order, the byte chunks the target connection
will deliver; on failure it carries the error message. -/
inductive DialResult where
  | ok (targetData : List String) : DialResult
  | err (msg : String) : DialResult
deriving DecidableEq

/-- Outcome of one `handleTunnel` invocation. `httpError` is a response sent
through the ResponseWriter before hijacking (status code and message);
`clientWrites` lists, in program order, the raw writes performed on the
hijacked client connection; `targetWrites` the raw writes on the target
connection; the two Closed flags record the deferred closes; `logs` the
lines printed; `raisedError` an error surfaced to a caller (the Go handler
returns nothing, so it is always none). -/
structure TunnelOutcome where
  httpError : Option (Int × String)
  clientWrites : List String
  targetWrites : List String
  clientClosed : Bool
  targetClosed : Bool
  logs : List String
  raisedError : Option String
deriving DecidableEq

/-- The literal 200 line of src/main.go line 356. -/
def connectionEstablishedLine : String := "HTTP/1.1 200 Connection Established\r\n\r\n"

/-- The literal 502 line of src/main.go line 350. -/
def badGatewayLine : String := "HTTP/1.1 502 Bad Gateway\r\n\r\n"

/-- Embedding of `handleTunnel` (src/main.go lines 332-361). `clientData`
lists the byte chunks the client will send after the CONNECT header. The
sequencing of the Go body is kept: hijack failures answer through the
ResponseWriter and return; a dial failure logs, writes the 502 line on the
raw client connection and returns (the deferred close of the client
connection runs, the target was never opened); on success the 200 line is
written first and only then does `io.Copy(clientConn, targetConn)` deliver
the target chunks to the client, while `io.Copy(targetConn, clientConn)`
independently delivers the client chunks to the target; both deferred
closes run when the handler returns. -/
def handleTunnel (hijack : HijackResult) (dial : DialResult)
    (clientData : List String) : TunnelOutcome :=
  match hijack with
  | .unsupported =>
      { httpError := some (500, "Hijacking not supported")
        clientWrites := []
        targetWrites := []
        clientClosed := false
        targetClosed := false
        logs := []
        raisedError := none }
  | .failed msg =>
      { httpError := some (503, msg)
        clientWrites := []
        targetWrites := []
        clientClosed := false
        targetClosed := false
        logs := []
        raisedError := none }
  | .ok =>
      match dial with
      | .err msg =>
          { httpError := none
            clientWrites := [badGatewayLine]
            targetWrites := []
            clientClosed := true
            targetClosed := false
            logs := ["Dial failed: " ++ msg]
            raisedError := none }
      | .ok targetData =>
          { httpError := none
            clientWrites := connectionEstablishedLine :: targetData
            targetWrites := clientData
            clientClosed := true
            targetClosed := true
            logs := []
            raisedError := none }

/-- Fields of `http.Request` that `handleHTTP` reads or writes: the method,
URL, headers and body are forwarded; `RequestURI` is the server-side
request-target field. Headers are the Go multimap, a collection of
key/value-list entries. -/
structure Request where
  method : String
  url : String
  headers : List (String × List String)
  body : String
  requestURI : String
deriving DecidableEq

/-- Result of `p.Transport.RoundTrip` in `handleHTTP` (src/main.go line
312): status code, response headers and response body on success, an error
message on failure. -/
inductive RoundTripResult where
  | ok (statusCode : Int) (headers : List (String × List String)) (body : String) : RoundTripResult
  | err (msg : String) : RoundTripResult
deriving DecidableEq

/-- Go `Header.Add`: appends the value to the entry of the key, creating the
entry when absent. -/
def addHeader (hs : List (String × List String)) (k v : String) :
    List (String × List String) :=
  match hs with
  | [] => [(k, [v])]
  | (k2, vs) :: rest =>
      if k2 == k then (k2, vs ++ [v]) :: rest else (k2, vs) :: addHeader rest k v

/-- The header-copy loop of src/main.go lines 320-324: for every entry of
the upstream header map, every value is added to the response writer in
turn. -/
def copyHeaders (dst : List (String × List String))
    (src : List (String × List String)) : List (String × List String) :=
  src.foldl (fun acc kv => kv.2.foldl (fun acc2 v => addHeader acc2 kv.1 v) acc) dst

/-- A header multimap carries the value under the key. -/
def hasHeaderPair (hs : List (String × List String)) (k v : String) : Bool :=
  hs.any (fun kv => kv.1 == k && kv.2.contains v)

/-- Outcome of one `handleHTTP` invocation: the requests handed to the
transport in order, and the status, headers and body written to the
client. -/
structure HTTPOutcome where
  sentRequests : List Request
  status : Int
  headers : List (String × List String)
  body : String
deriving DecidableEq

/-- Embedding of `handleHTTP` (src/main.go lines 306-329): clear
`RequestURI`, hand the request to the transport once; on error answer with
`http.Error` (which sets its two text headers, writes status 502 and the
message followed by a newline); on success copy every upstream header with
`Add`, write the upstream status code, and stream the body through
`io.Copy`. -/
def handleHTTP (r : Request) (transport : Request → RoundTripResult) : HTTPOutcome :=
  let r2 : Request := { r with requestURI := "" }
  match transport r2 with
  | .err msg =>
      { sentRequests := [r2]
        status := 502
        headers :=
          [ ("Content-Type", ["text/plain; charset=utf-8"])
          , ("X-Content-Type-Options", ["nosniff"]) ]
        body := "Proxy Error: " ++ msg ++ "\n" }
  | .ok s h b =>
      { sentRequests := [r2]
        status := s
        headers := copyHeaders [] h
        body := b }

/-- The two proxy handlers a request can be routed to. -/
inductive ProxyHandler where
  | tunnel : ProxyHandler
  | httpForward : ProxyHandler
deriving DecidableEq

/-- The CONNECT method verb compared against in `ServeHTTP`. -/
def methodConnect : String := "CONNECT"

/-- Routing decision of `ServeHTTP` (src/main.go lines 294-303): the CONNECT
method goes to `handleTunnel`, every other method to `handleHTTP`. -/
def serveHTTPRoute (method : String) : ProxyHandler :=
  if method == methodConnect then .tunnel else .httpForward

/-! ### Helper lemmas -/

theorem goslice_foldl_push {α β : Type} (f : β → α) (xs : List β) (acc : List α) :
    xs.foldl (fun a p => GoSlice.push a (f p)) (GoSlice.mk acc) =
      GoSlice.mk (acc ++ xs.map f) := by
  induction xs generalizing acc with
  | nil => simp
  | cons x tl ih =>
      rw [List.foldl_cons]
      have hstep : GoSlice.push (GoSlice.mk acc) (f x) = GoSlice.mk (acc ++ [f x]) := rfl
      rw [hstep, ih]
      simp

theorem goslice_foldl_push_from_nil {α β : Type} (f : β → α) (x : β) (xs : List β) :
    (x :: xs).foldl (fun a p => GoSlice.push a (f p)) GoSlice.nil =
      GoSlice.mk ((x :: xs).map f) := by
  rw [List.foldl_cons]
  have hstep : GoSlice.push GoSlice.nil (f x) = GoSlice.mk [f x] := rfl
  rw [hstep, goslice_foldl_push]
  simp

theorem bool_if_swap {α : Type} (b : Bool) (x y : α) :
    (if !b then x else y) = (if b then y else x) := by
  cases b <;> simp

/-! ### C1: direct classification of peers -/

/-- C1: for every peer projected by the status query, the direct flag is true
exactly when the current address of the projected record is non-empty and its
relay field is empty; every other combination of empty/non-empty
(curAddr, relayedVia), including both non-empty, yields direct = false. -/
theorem peer_direct_iff (p : TSPeerStatus) :
    (projectPeer p).direct = true ↔
      (¬((projectPeer p).curAddr = "") ∧ (projectPeer p).relayedVia = "") := by
  by_cases hc : p.curAddr = "" <;> by_cases hr : p.relay = "" <;>
    simp [projectPeer, hc, hr]

/-- Witness for C1 at a concrete direct peer. -/
theorem peer_direct_iff_witness :
    (projectPeer
      { dnsName := "peer1", hostName := "peer1", tailscaleIPs := []
        online := true, curAddr := "192.168.1.100:41641", relay := ""
        rxBytes := 0, txBytes := 0
        lastSeen := { isZero := true, rfc3339 := "" }
        lastHandshake := { isZero := true, rfc3339 := "" } }).direct = true :=
  (peer_direct_iff _).mpr (by constructor <;> simp [projectPeer])

/-! ### C2: successful CONNECT tunnel -/

/-- C2: for every CONNECT request where the hijack succeeds and the Dialer
succeeds, the sequence of writes on the raw client connection is exactly the
literal 200 status line (with no further headers) followed by the tunneled
bytes from the target, so the status line is delivered before any tunneled
byte. -/
theorem tunnel_success_writes (targetData clientData : List String) :
    (handleTunnel .ok (.ok targetData) clientData).clientWrites =
        connectionEstablishedLine :: targetData ∧
      connectionEstablishedLine = "HTTP/1.1 200 Connection Established\r\n\r\n" :=
  ⟨rfl, rfl⟩

/-! ### C3: failed CONNECT dial -/

/-- C3: for every CONNECT request where the hijack succeeds but the Dialer
fails, the raw client connection receives exactly the literal 502 line, the
client connection is then closed, no tunneled byte is ever written to either
side, the failure is reported only by a log line, and no error is raised to
any caller. -/
theorem tunnel_dial_failure (msg : String) (clientData : List String) :
    (handleTunnel .ok (.err msg) clientData).clientWrites = [badGatewayLine] ∧
      badGatewayLine = "HTTP/1.1 502 Bad Gateway\r\n\r\n" ∧
      (handleTunnel .ok (.err msg) clientData).clientClosed = true ∧
      (handleTunnel .ok (.err msg) clientData).targetWrites = [] ∧
      (handleTunnel .ok (.err msg) clientData).logs = ["Dial failed: " ++ msg] ∧
      (handleTunnel .ok (.err msg) clientData).raisedError = none :=
  ⟨rfl, rfl, rfl, rfl, rfl, rfl⟩

/-! ### C7: front-door dispatch -/

/-- C7: for every inbound request, exactly one routing decision is made: the
route is the tunnel handler exactly when the method equals CONNECT, and the
HTTP forward handler exactly when it does not; since the two handlers are
distinct constructors, no request is handled by both or by neither. -/
theorem route_exactly_one (m : String) :
    (serveHTTPRoute m = .tunnel ↔ m = methodConnect) ∧
      (serveHTTPRoute m = .httpForward ↔ ¬(m = methodConnect)) := by
  by_cases h : m = methodConnect <;> simp [serveHTTPRoute, h]

/-- Witness for C7: CONNECT routes to the tunnel handler and GET to the
forward proxy. -/
theorem route_exactly_one_witness :
    serveHTTPRoute "CONNECT" = .tunnel ∧ serveHTTPRoute "GET" = .httpForward :=
  ⟨(route_exactly_one "CONNECT").1.mpr rfl,
   (route_exactly_one "GET").2.mpr (by simp [methodConnect])⟩

/-! ### C10: self projection carries no link state -/

/-- C10: for every snapshot in which self is present, the projected self
record copies only the identity, address and online fields; its direct flag
is false and its relay, current address, counters and timestamps are
zero/empty regardless of the link state, counters or timestamps of the self
peer in the snapshot. -/
theorem self_projection_zero_link_fields (s : TSPeerStatus) (ps : List TSPeerStatus)
    (bs : String) :
    (buildStatusResponse { self := some s, peer := ps, backendState := bs }).self =
      { name := s.dnsName
        hostName := s.hostName
        tailscaleIPs := .mk (s.tailscaleIPs.map IPAddr.render)
        online := s.online
        direct := false
        relayedVia := ""
        curAddr := ""
        rxBytes := 0
        txBytes := 0
        lastSeen := ""
        lastHandshake := "" } := by
  simp [buildStatusResponse, projectSelf, zeroPeerStatus]

/-! ### Header-copy lemmas -/

theorem hasHeaderPair_iff (hs : List (String × List String)) (k v : String) :
    hasHeaderPair hs k v = true ↔ ∃ vs, (k, vs) ∈ hs ∧ v ∈ vs := by
  simp [hasHeaderPair, List.any_eq_true]
  constructor
  · rintro ⟨a, b, hm, hak, hvb⟩
    exact ⟨b, by rw [hak] at hm; exact hm, hvb⟩
  · rintro ⟨vs, hm, hv⟩
    exact ⟨k, vs, hm, rfl, hv⟩

theorem mem_addHeader_of (hs : List (String × List String)) (k v k2 v2 : String)
    (h : ∃ vs, (k, vs) ∈ hs ∧ v ∈ vs) :
    ∃ vs, (k, vs) ∈ addHeader hs k2 v2 ∧ v ∈ vs := by
  induction hs with
  | nil =>
      obtain ⟨vs, hm, _⟩ := h
      simp at hm
  | cons hd tl ih =>
      obtain ⟨k1, vs1⟩ := hd
      obtain ⟨vs, hm, hv⟩ := h
      by_cases hbe : (k1 == k2) = true
      · have hrw : addHeader ((k1, vs1) :: tl) k2 v2 = (k1, vs1 ++ [v2]) :: tl := by
          simp [addHeader, hbe]
        rw [hrw]
        rcases List.mem_cons.mp hm with heq | hmem
        · have hk : k = k1 := congrArg Prod.fst heq
          have hvs : vs = vs1 := congrArg Prod.snd heq
          refine ⟨vs1 ++ [v2], ?_, ?_⟩
          · exact List.mem_cons.mpr (Or.inl (by rw [hk]))
          · exact List.mem_append_left _ (hvs ▸ hv)
        · exact ⟨vs, List.mem_cons_of_mem _ hmem, hv⟩
      · have hrw : addHeader ((k1, vs1) :: tl) k2 v2 =
            (k1, vs1) :: addHeader tl k2 v2 := by
          simp [addHeader, hbe]
        rw [hrw]
        rcases List.mem_cons.mp hm with heq | hmem
        · exact ⟨vs, List.mem_cons.mpr (Or.inl heq), hv⟩
        · obtain ⟨vs2, hm2, hv2⟩ := ih ⟨vs, hmem, hv⟩
          exact ⟨vs2, List.mem_cons_of_mem _ hm2, hv2⟩

theorem mem_addHeader_self (hs : List (String × List String)) (k v : String) :
    ∃ vs, (k, vs) ∈ addHeader hs k v ∧ v ∈ vs := by
  induction hs with
  | nil => exact ⟨[v], by simp [addHeader], by simp⟩
  | cons hd tl ih =>
      obtain ⟨k1, vs1⟩ := hd
      by_cases hbe : (k1 == k) = true
      · have hkeq : k1 = k := by simpa using hbe
        have hrw : addHeader ((k1, vs1) :: tl) k v = (k1, vs1 ++ [v]) :: tl := by
          simp [addHeader, hbe]
        rw [hrw]
        refine ⟨vs1 ++ [v], ?_, by simp⟩
        exact List.mem_cons.mpr (Or.inl (by rw [hkeq]))
      · have hrw : addHeader ((k1, vs1) :: tl) k v =
            (k1, vs1) :: addHeader tl k v := by
          simp [addHeader, hbe]
        rw [hrw]
        obtain ⟨vs2, hm2, hv2⟩ := ih
        exact ⟨vs2, List.mem_cons_of_mem _ hm2, hv2⟩

theorem hasHeaderPair_foldl_add_of (vs : List String) (k2 : String)
    (acc : List (String × List String)) (k v : String)
    (h : hasHeaderPair acc k v = true) :
    hasHeaderPair (vs.foldl (fun a w => addHeader a k2 w) acc) k v = true := by
  induction vs generalizing acc with
  | nil => simpa using h
  | cons w tl ih =>
      rw [List.foldl_cons]
      refine ih (addHeader acc k2 w) ?_
      rw [hasHeaderPair_iff]
      exact mem_addHeader_of acc k v k2 w ((hasHeaderPair_iff acc k v).mp h)

theorem hasHeaderPair_foldl_add_self (vs : List String) (k v : String)
    (acc : List (String × List String)) (h : v ∈ vs) :
    hasHeaderPair (vs.foldl (fun a w => addHeader a k w) acc) k v = true := by
  induction vs generalizing acc with
  | nil => simp at h
  | cons w tl ih =>
      rw [List.foldl_cons]
      rcases List.mem_cons.mp h with hv | hv
      · subst hv
        refine hasHeaderPair_foldl_add_of tl k (addHeader acc k v) k v ?_
        rw [hasHeaderPair_iff]
        exact mem_addHeader_self acc k v
      · exact ih (addHeader acc k w) hv

theorem hasHeaderPair_copyHeaders_of (src dst : List (String × List String))
    (k v : String) (h : hasHeaderPair dst k v = true) :
    hasHeaderPair (copyHeaders dst src) k v = true := by
  induction src generalizing dst with
  | nil => simpa [copyHeaders] using h
  | cons kv tl ih =>
      have hstep : copyHeaders dst (kv :: tl) =
          copyHeaders (kv.2.foldl (fun a w => addHeader a kv.1 w) dst) tl := rfl
      rw [hstep]
      exact ih _ (hasHeaderPair_foldl_add_of kv.2 kv.1 dst k v h)

theorem hasHeaderPair_copyHeaders (src dst : List (String × List String))
    (k v : String) (h : ∃ vs, (k, vs) ∈ src ∧ v ∈ vs) :
    hasHeaderPair (copyHeaders dst src) k v = true := by
  induction src generalizing dst with
  | nil =>
      obtain ⟨vs, hm, _⟩ := h
      simp at hm
  | cons kv tl ih =>
      have hstep : copyHeaders dst (kv :: tl) =
          copyHeaders (kv.2.foldl (fun a w => addHeader a kv.1 w) dst) tl := rfl
      rw [hstep]
      obtain ⟨k1, vs1⟩ := kv
      obtain ⟨vs, hm, hv⟩ := h
      rcases List.mem_cons.mp hm with heq | hmem
      · have hk : k = k1 := congrArg Prod.fst heq
        have hvs : vs = vs1 := congrArg Prod.snd heq
        refine hasHeaderPair_copyHeaders_of tl _ k v ?_
        subst hk
        exact hasHeaderPair_foldl_add_self vs1 k v dst (hvs ▸ hv)
      · exact ih _ ⟨vs, hmem, hv⟩

/-! ### C8: request-target metadata cleared, rest untouched -/

/-- C8: for every non-CONNECT forward request, the only request handed to the
outbound transport is the inbound request with the server-side RequestURI
field cleared; method, URL, headers and body are passed through unchanged and
no other field is modified. -/
theorem forward_clears_request_target (r : Request)
    (transport : Request → RoundTripResult) :
    (handleHTTP r transport).sentRequests =
      [{ method := r.method, url := r.url, headers := r.headers, body := r.body
         requestURI := "" }] := by
  simp only [handleHTTP]
  split <;> rfl

/-! ### C6: forward dial/transport failure -/

/-- C6: for every non-CONNECT forward request where the transport fails, the
handler answers that client with status 502 and the human-readable body
produced by the error message, hands the request to the transport exactly
once (no retry), and terminates normally, confining the failure to the one
session. -/
theorem forward_failure_bad_gateway (r : Request)
    (transport : Request → RoundTripResult) (msg : String)
    (h : transport { r with requestURI := "" } = .err msg) :
    (handleHTTP r transport).status = 502 ∧
      (handleHTTP r transport).body = "Proxy Error: " ++ msg ++ "\n" ∧
      (handleHTTP r transport).sentRequests.length = 1 := by
  simp only [handleHTTP]
  rw [h]
  exact ⟨rfl, rfl, rfl⟩

/-- Witness for C6 at a concrete request and a transport that always
fails. -/
theorem forward_failure_bad_gateway_witness :
    (handleHTTP
        { method := "GET", url := "http://svc/x", headers := [], body := ""
          requestURI := "http://svc/x" }
        (fun _ => .err "connection refused")).status = 502 ∧
      (handleHTTP
        { method := "GET", url := "http://svc/x", headers := [], body := ""
          requestURI := "http://svc/x" }
        (fun _ => .err "connection refused")).body =
          "Proxy Error: connection refused\n" :=
  ⟨(forward_failure_bad_gateway _ _ "connection refused" rfl).1,
   (forward_failure_bad_gateway _ _ "connection refused" rfl).2.1⟩

/-! ### C4: forward success relays status, body and headers -/

/-- C4: for every non-CONNECT forward request where the transport returns
status S, headers H and body B, the client observes exactly status S and
exactly body B, and every header name/value pair of H is relayed to the
client (no pair is filtered, hop-by-hop headers included). -/
theorem forward_success_relay (r : Request)
    (transport : Request → RoundTripResult) (s : Int)
    (hdrs : List (String × List String)) (b : String)
    (h : transport { r with requestURI := "" } = .ok s hdrs b) :
    (handleHTTP r transport).status = s ∧
      (handleHTTP r transport).body = b ∧
      ∀ k v, hasHeaderPair hdrs k v = true →
        hasHeaderPair (handleHTTP r transport).headers k v = true := by
  refine ⟨?_, ?_, ?_⟩
  · simp only [handleHTTP]
    rw [h]
  · simp only [handleHTTP]
    rw [h]
  · intro k v hkv
    have hout : (handleHTTP r transport).headers = copyHeaders [] hdrs := by
      simp only [handleHTTP]
      rw [h]
    rw [hout]
    exact hasHeaderPair_copyHeaders hdrs [] k v ((hasHeaderPair_iff hdrs k v).mp hkv)

/-- Witness for C4 at a concrete request and a transport returning a fixed
response with one header. -/
theorem forward_success_relay_witness :
    (handleHTTP
        { method := "GET", url := "http://svc/x", headers := [], body := ""
          requestURI := "http://svc/x" }
        (fun _ => .ok 200 [("Connection", ["keep-alive"])] "hello")).status = 200 ∧
      (handleHTTP
        { method := "GET", url := "http://svc/x", headers := [], body := ""
          requestURI := "http://svc/x" }
        (fun _ => .ok 200 [("Connection", ["keep-alive"])] "hello")).body = "hello" ∧
      hasHeaderPair
        (handleHTTP
          { method := "GET", url := "http://svc/x", headers := [], body := ""
            requestURI := "http://svc/x" }
          (fun _ => .ok 200 [("Connection", ["keep-alive"])] "hello")).headers
        "Connection" "keep-alive" = true := by
  have h := forward_success_relay
    { method := "GET", url := "http://svc/x", headers := [], body := ""
      requestURI := "http://svc/x" }
    (fun _ => .ok 200 [("Connection", ["keep-alive"])] "hello")
    200 [("Connection", ["keep-alive"])] "hello" rfl
  exact ⟨h.1, h.2.1, h.2.2 "Connection" "keep-alive" (by decide)⟩

/-! ### C9: the traffic counters are signed 64-bit in the code -/

/-- Concrete snapshot peer carrying a negative rx counter: representable
because the Go field is int64, not uint64. -/
def negCounterPeer : TSPeerStatus :=
  { dnsName := "p.ts.net", hostName := "p", tailscaleIPs := [], online := true
    curAddr := "", relay := "", rxBytes := -1, txBytes := -2
    lastSeen := { isZero := true, rfc3339 := "" }
    lastHandshake := { isZero := true, rfc3339 := "" } }

/-- Counterexample to C9: the PeerStatus counters are declared int64 in the
code, so a negative snapshot counter is representable and the projection
copies it into the status record unchanged; the projected rx counter here is
-1, which is negative, contradicting both non-negativity and the claimed
range over the unsigned 64-bit values. -/
theorem counters_negative_value :
    (projectPeer negCounterPeer).rxBytes = -1 ∧
      (projectPeer negCounterPeer).rxBytes < 0 ∧
      (projectPeer negCounterPeer).txBytes = -2 ∧
      (projectPeer negCounterPeer).txBytes < 0 := by
  refine ⟨rfl, ?_, rfl, ?_⟩ <;> decide

/-- C9 as amended: the counters are signed 64-bit (int64) values: for every
snapshot peer whose counters fit int64, the projected record carries them
verbatim, and they stay in the int64 range [-2^63, 2^63 - 1]. -/
theorem counters_int64_range (p : TSPeerStatus)
    (hrx : isInt64 p.rxBytes) (htx : isInt64 p.txBytes) :
    (projectPeer p).rxBytes = p.rxBytes ∧
      (projectPeer p).txBytes = p.txBytes ∧
      isInt64 (projectPeer p).rxBytes ∧
      isInt64 (projectPeer p).txBytes :=
  ⟨rfl, rfl, hrx, htx⟩

/-- Witness for C9 as amended at the concrete negative-counter peer. -/
theorem counters_int64_range_witness :
    (projectPeer negCounterPeer).rxBytes = -1 ∧
      isInt64 (projectPeer negCounterPeer).rxBytes :=
  ⟨(counters_int64_range negCounterPeer (by decide) (by decide)).1.trans rfl,
   (counters_int64_range negCounterPeer (by decide) (by decide)).2.2.1⟩

/-! ### C5: shape of the serialized status document -/

/-- Discriminator: the JSON value is null. -/
def JSON.isNull : JSON → Bool
  | .jnull => true
  | _ => false

/-- Snapshot in which self is absent and there are no peers. -/
def emptySnapshot : TSStatus :=
  { self := none, peer := [], backendState := "Stopped" }

/-- Counterexample to C5 as stated: on a snapshot without self and without
peers, the emitted self record is the zero record whose nil TailscaleIPs
slice marshals as JSON null — not as an empty array — and the peers field is
JSON null as well, because encoding/json marshals nil Go slices as null. -/
theorem status_nil_slice_null :
    (encodeStatusResponse (buildStatusResponse emptySnapshot)).lookup "self" =
        some (encodePeerStatus zeroPeerStatus) ∧
      (encodePeerStatus zeroPeerStatus).lookup "tailscale_ips" = some JSON.jnull ∧
      (encodeStatusResponse (buildStatusResponse emptySnapshot)).lookup "peers" =
        some JSON.jnull ∧
      JSON.isNull JSON.jnull = true ∧
      JSON.isNull (JSON.jarr []) = false :=
  ⟨rfl, rfl, rfl, rfl, rfl⟩

/-- C5 as amended: for every snapshot the serialized document carries the
three top-level keys; the self record is always emitted (the zero record
when self is absent) and carries all eleven keys; every peer record carries
all eleven keys; timestamps are emitted as strings, empty on the zero time
and RFC3339 otherwise, never null or omitted; but the nil Go slices marshal
as JSON null, so the tailscale_ips field of an absent self and the peers
field of a peerless snapshot are null rather than empty arrays, while a
present self carries a real (possibly empty) IP array and a non-empty peer
set a real array of the projected peers in order. -/
theorem status_document_shape (st : TSStatus) :
    (encodeStatusResponse (buildStatusResponse st)).hasKey "self" = true ∧
      (encodeStatusResponse (buildStatusResponse st)).hasKey "peers" = true ∧
      (encodeStatusResponse (buildStatusResponse st)).hasKey "backend_state" = true ∧
      (encodeStatusResponse (buildStatusResponse st)).lookup "backend_state" =
        some (.jstr st.backendState) ∧
      hasAllPeerStatusKeys (encodePeerStatus (buildStatusResponse st).self) = true ∧
      (st.self = none →
        (buildStatusResponse st).self = zeroPeerStatus ∧
        (encodePeerStatus zeroPeerStatus).lookup "tailscale_ips" = some JSON.jnull) ∧
      (∀ s, st.self = some s →
        (encodePeerStatus (buildStatusResponse st).self).lookup "tailscale_ips" =
          some (.jarr ((s.tailscaleIPs.map IPAddr.render).map JSON.jstr))) ∧
      (st.peer = [] →
        (encodeStatusResponse (buildStatusResponse st)).lookup "peers" =
          some JSON.jnull) ∧
      (st.peer ≠ [] →
        (encodeStatusResponse (buildStatusResponse st)).lookup "peers" =
          some (.jarr ((st.peer.map projectPeer).map encodePeerStatus))) ∧
      (∀ p, p ∈ st.peer →
        hasAllPeerStatusKeys (encodePeerStatus (projectPeer p)) = true ∧
        (encodePeerStatus (projectPeer p)).lookup "last_seen" =
          some (.jstr (if p.lastSeen.isZero then "" else p.lastSeen.rfc3339)) ∧
        (encodePeerStatus (projectPeer p)).lookup "last_handshake" =
          some (.jstr (if p.lastHandshake.isZero then "" else p.lastHandshake.rfc3339))) := by
  refine ⟨rfl, rfl, rfl, rfl, rfl, ?_, ?_, ?_, ?_, ?_⟩
  · intro h
    exact ⟨by simp [buildStatusResponse, projectSelf, h], rfl⟩
  · intro s h
    simp only [buildStatusResponse]
    rw [h]
    rfl
  · intro h
    have hb : buildStatusResponse st =
        { self := projectSelf st.self, peers := GoSlice.nil
          backendState := st.backendState } := by
      simp [buildStatusResponse, h]
    rw [hb]
    rfl
  · intro h
    cases hpe : st.peer with
    | nil => exact absurd hpe h
    | cons x xs =>
        have hb : buildStatusResponse st =
            { self := projectSelf st.self
              peers := GoSlice.mk ((x :: xs).map projectPeer)
              backendState := st.backendState } := by
          simp only [buildStatusResponse, hpe]
          rw [goslice_foldl_push_from_nil]
        rw [hb]
        rfl
  · intro p hp
    refine ⟨rfl, ?_, ?_⟩
    · have hls : (encodePeerStatus (projectPeer p)).lookup "last_seen" =
          some (.jstr (if !p.lastSeen.isZero then p.lastSeen.rfc3339 else "")) := rfl
      rw [hls, bool_if_swap]
    · have hlh : (encodePeerStatus (projectPeer p)).lookup "last_handshake" =
          some (.jstr (if !p.lastHandshake.isZero then p.lastHandshake.rfc3339 else "")) := rfl
      rw [hlh, bool_if_swap]

/-- Concrete self peer for the C5 witness. -/
def sampleSelf : TSPeerStatus :=
  { dnsName := "me.ts.net", hostName := "me"
    tailscaleIPs := [{ render := "100.64.0.5" }], online := true
    curAddr := "", relay := "", rxBytes := 0, txBytes := 0
    lastSeen := { isZero := true, rfc3339 := "" }
    lastHandshake := { isZero := true, rfc3339 := "" } }

/-- Concrete relayed peer with a non-zero last-seen time for the C5
witness. -/
def samplePeer : TSPeerStatus :=
  { dnsName := "peer.ts.net", hostName := "peer", tailscaleIPs := []
    online := true, curAddr := "", relay := "nyc", rxBytes := 3, txBytes := 4
    lastSeen := { isZero := false, rfc3339 := "2026-01-19T20:30:00Z" }
    lastHandshake := { isZero := true, rfc3339 := "" } }

/-- Concrete snapshot for the C5 witness: self present, one peer. -/
def sampleSnapshot : TSStatus :=
  { self := some sampleSelf, peer := [samplePeer], backendState := "Running" }

/-- Witness for C5 as amended at the concrete snapshot. -/
theorem status_document_shape_witness :
    (encodeStatusResponse (buildStatusResponse sampleSnapshot)).hasKey "self" = true ∧
      hasAllPeerStatusKeys (encodePeerStatus (projectPeer samplePeer)) = true ∧
      (encodePeerStatus (projectPeer samplePeer)).lookup "last_seen" =
        some (.jstr "2026-01-19T20:30:00Z") ∧
      (encodePeerStatus (projectPeer samplePeer)).lookup "last_handshake" =
        some (.jstr "") := by
  have h := status_document_shape sampleSnapshot
  have hp := h.2.2.2.2.2.2.2.2.2 samplePeer (by simp [sampleSnapshot])
  refine ⟨h.1, hp.1, ?_, ?_⟩
  · rw [hp.2.1]
    rfl
  · rw [hp.2.2]
    rfl
